import Mathlib

/-!
# Verification of the country-currency refresh/query service

Shallow embedding of the core logic of the repository (a small HTTP API that
fetches country metadata and exchange rates, reconciles them into a persisted
store of country records, and serves filtered queries).

Conventions of the embedding:
* Python floats are modelled as `ℚ` (the arithmetic the claims are about is
  exact: sign, zero tests, division).
* Python `None`-able values are `Option`.
* JSON dict access `d.get(k)` on the raw country payload is modelled by
  `Option` fields of `RawCountry`; `d.get('currencies', [])` and
  `d.get('population', 0)` are modelled with their defaults applied in the
  embedded function, mirroring the source.
* Python truthiness (`if not exchange_rate`, `if currency_code`, `if region`)
  is modelled explicitly: a numeric option is falsy when it is `none` or `0`;
  a string option is falsy when it is `none` or `""`.
* `datetime.utcnow()` is modelled by a caller-supplied clock `Nat → Nat`
  giving the value of the k-th `utcnow()` call of the cycle, and
  `random.uniform(1000, 2000)` by a caller-supplied multiplier stream
  `Nat → ℚ` (the source guarantees the drawn value lies in [1000, 2000]).
* The SQL store is a list of records plus a surrogate-id counter; SQLAlchemy
  `ilike` with a wildcard-free pattern is case-insensitive equality
  (`ILIKE NULL` matches nothing), and `==` on strings is case-sensitive
  (SQLite BINARY collation).
-/

/-- One entry of a raw country's `currencies` list: `{"code": ...}`;
the code may be missing (`.get('code')`). -/
structure Currency where
  code : Option String
deriving Repr, DecidableEq

/-- A raw country entry as returned by the countries API
(`fields=name,capital,region,population,flag,currencies`); every field may be
absent from the JSON object. A missing `currencies` key is modelled as `[]`
(the source reads it with `.get('currencies', [])`) and a missing
`population` as `none` (the source reads `.get('population', 0)`). -/
structure RawCountry where
  name : Option String
  capital : Option String
  region : Option String
  population : Option Int
  flag : Option String
  currencies : List Currency
deriving Repr, DecidableEq

/-- The exchange-rate table: mapping from currency code to rate
(`fetch_exchange_rates` returns `response.json().get('rates', {})`). -/
abbrev Rates := List (String × ℚ)

/-- `compute_estimated_gdp(population, exchange_rate)` from `app/utils.py`:
`if not exchange_rate: return None` (Python truthiness: `None` or `0` rate),
else `(population * gdp_per_capita) / exchange_rate` where `gdp_per_capita`
is drawn by `random.uniform(1000, 2000)`; the drawn multiplier is the
parameter `m`. -/
def compute_estimated_gdp (m : ℚ) (population : Int) (exchange_rate : Option ℚ) :
    Option ℚ :=
  match exchange_rate with
  | none => none
  | some r => if r = 0 then none else some ((population : ℚ) * m / r)

/-- The reconciled country dict built by `extract_country_data` (no `id` yet). -/
structure CountryData where
  name : Option String
  capital : Option String
  region : Option String
  population : Int
  currency_code : Option String
  exchange_rate : Option ℚ
  estimated_gdp : Option ℚ
  flag_url : Option String
  last_refreshed_at : Nat
deriving Repr, DecidableEq

/-- `extract_country_data(country_data, exchange_rates)` from `app/utils.py`.
`m` is the multiplier drawn by `random.uniform(1000, 2000)` inside
`compute_estimated_gdp`, `now` the value of `datetime.utcnow()` at line 71.
Truthiness: `exchange_rates.get(currency_code) if currency_code else None`
treats a `None` or empty-string code as falsy; likewise
`... if exchange_rate else None` treats a `None` or zero rate as falsy. -/
def extract_country_data (m : ℚ) (now : Nat) (country_data : RawCountry)
    (exchange_rates : Rates) : CountryData :=
  let currency_code : Option String :=
    match country_data.currencies with
    | [] => none
    | c :: _ => c.code
  let exchange_rate : Option ℚ :=
    match currency_code with
    | none => none
    | some code => if code = "" then none else exchange_rates.lookup code
  let population0 : Int := country_data.population.getD 0
  let population : Int := if population0 ≤ 0 then 1000000 else population0
  let estimated_gdp : Option ℚ :=
    match exchange_rate with
    | none => none
    | some r => if r = 0 then none else compute_estimated_gdp m population (some r)
  { name := country_data.name
    capital := country_data.capital
    region := country_data.region
    population := population
    currency_code := currency_code
    exchange_rate := exchange_rate
    estimated_gdp := estimated_gdp
    flag_url := country_data.flag
    last_refreshed_at := now }

/-- A persisted `Country` row (`app/models.py`): the reconciled fields plus
the surrogate primary key `id`. (Database constraints such as `nullable` are
checked at commit time by the engine and are not part of the embedded logic.) -/
structure Country where
  id : Nat
  name : Option String
  capital : Option String
  region : Option String
  population : Int
  currency_code : Option String
  exchange_rate : Option ℚ
  estimated_gdp : Option ℚ
  flag_url : Option String
  last_refreshed_at : Nat
deriving Repr, DecidableEq

/-- The persisted store: the `countries` table in row order, plus the next
free surrogate id (autoincrement counter). -/
structure Store where
  records : List Country
  nextId : Nat
deriving Repr, DecidableEq

/-- ASCII lower-casing of a string, `Char.toLower` mapped over its
characters (the library's `String.toLower` does exactly this; we map over
`String.data` directly so the function computes by structural recursion). -/
def lowerChars (s : String) : List Char :=
  s.data.map Char.toLower

/-- ASCII upper-casing, `str.upper()`: `Char.toUpper` over the characters. -/
def strUpper (s : String) : String :=
  ⟨s.data.map Char.toUpper⟩

/-- `models.Country.name.ilike(country_dict["name"])` with a wildcard-free
pattern: case-insensitive equality of the row's name with the target. A
`NULL` on either side matches nothing (SQL three-valued logic). -/
def nameMatches (target : Option String) (c : Country) : Bool :=
  match target, c.name with
  | some t, some n => lowerChars n == lowerChars t
  | _, _ => false

/-- `for key, value in country_dict.items(): setattr(db_country, key, value)`:
overwrite every dict field of an existing row in place; `id` is not in the
dict and is preserved. -/
def applyCountryData (c : Country) (d : CountryData) : Country :=
  { id := c.id
    name := d.name
    capital := d.capital
    region := d.region
    population := d.population
    currency_code := d.currency_code
    exchange_rate := d.exchange_rate
    estimated_gdp := d.estimated_gdp
    flag_url := d.flag_url
    last_refreshed_at := d.last_refreshed_at }

/-- `models.Country(**country_dict)` inserted with a fresh autoincrement id. -/
def newCountry (id : Nat) (d : CountryData) : Country :=
  { id := id
    name := d.name
    capital := d.capital
    region := d.region
    population := d.population
    currency_code := d.currency_code
    exchange_rate := d.exchange_rate
    estimated_gdp := d.estimated_gdp
    flag_url := d.flag_url
    last_refreshed_at := d.last_refreshed_at }

/-- Overwrite the first row matching the dict's name case-insensitively
(`db.query(Country).filter(name.ilike(...)).first()` followed by the
`setattr` loop); `none` when no row matches. -/
def upsertRecords (d : CountryData) : List Country → Option (List Country)
  | [] => none
  | c :: rest =>
      if nameMatches d.name c then some (applyCountryData c d :: rest)
      else (upsertRecords d rest).map (c :: ·)

/-- One iteration of the refresh loop's body for one reconciled dict:
update the first case-insensitive name match in place, else
`db.add(models.Country(**country_dict))` appending a new row with a fresh id. -/
def upsertCountry (s : Store) (d : CountryData) : Store :=
  match upsertRecords d s.records with
  | some rs => { s with records := rs }
  | none => { records := s.records ++ [newCountry s.nextId d], nextId := s.nextId + 1 }

/-- The error kinds surfaced by the handlers in `app/main.py` that the
embedded endpoints can raise. -/
inductive ApiError where
  | externalUnavailable (details : String)
  | notFound
deriving Repr, DecidableEq

/-- `schemas.StatusResponse` as returned by the refresh endpoint. -/
structure Summary where
  total_countries : Nat
  last_refreshed_at : Nat
deriving Repr, DecidableEq

/-- The `for country_data in countries_data:` loop of `refresh_countries`
(`app/main.py` lines 92-103), started at global `utcnow()`-call index `i`:
the entry at offset `k` is reconciled with multiplier `mult (i+k)` and
record timestamp `clock (i+k+1)` (`utcnow()` call 0 of the cycle is
`refresh_time` at line 90), then upserted. -/
def refreshLoop (rates : Rates) (mult : Nat → ℚ) (clock : Nat → Nat) :
    List RawCountry → Nat → Store → Store
  | [], _, s => s
  | cd :: rest, i, s =>
      refreshLoop rates mult clock rest (i + 1)
        (upsertCountry s (extract_country_data (mult i) (clock (i + 1)) cd rates))

/-- `POST /countries/refresh` (`refresh_countries`, `app/main.py` 86-108).
The two fetch results are passed in already-evaluated form (`Except.error`
models a raised `ExternalAPIError`); `fetch_country_data()` runs first, so
its failure wins. On success: `refresh_time = utcnow()` (clock call 0), the
reconcile/upsert loop, one commit, then `db.query(Country).count()` on the
committed store. Returns the resulting store (unchanged on fetch failure —
both fetches precede any mutation) and the response. -/
def refresh_countries (fetchCountries : Except String (List RawCountry))
    (fetchRates : Except String Rates) (mult : Nat → ℚ) (clock : Nat → Nat)
    (s : Store) : Store × Except ApiError Summary :=
  match fetchCountries with
  | .error e => (s, .error (.externalUnavailable e))
  | .ok countries_data =>
      match fetchRates with
      | .error e => (s, .error (.externalUnavailable e))
      | .ok exchange_rates =>
          let refresh_time := clock 0
          let s' := refreshLoop exchange_rates mult clock countries_data 0 s
          (s', .ok { total_countries := s'.records.length
                     last_refreshed_at := refresh_time })

/-- Row order on `estimated_gdp` for `ORDER BY ... ASC` (SQLite: `NULL`
sorts below every value, so nulls come first ascending). -/
def gdpAscLE (c₁ c₂ : Country) : Bool :=
  match c₁.estimated_gdp, c₂.estimated_gdp with
  | none, _ => true
  | some _, none => false
  | some a, some b => a ≤ b

/-- Row order on `estimated_gdp` for `ORDER BY ... DESC` (nulls last). -/
def gdpDescLE (c₁ c₂ : Country) : Bool :=
  match c₁.estimated_gdp, c₂.estimated_gdp with
  | _, none => true
  | none, some _ => false
  | some a, some b => b ≤ a

/-- `if region: query = query.filter(models.Country.region == region)`
(`app/main.py` 118-119). Python truthiness: an absent or empty-string
argument leaves the query unfiltered; a row with `NULL` region never
equals a string. -/
def regionFilter (region : Option String) (q : List Country) : List Country :=
  match region with
  | some r => if r = "" then q else q.filter (fun c => c.region == some r)
  | none => q

/-- `if currency: query = query.filter(models.Country.currency_code ==
currency.upper())` (`app/main.py` 120-121). -/
def currencyFilter (currency : Option String) (q : List Country) : List Country :=
  match currency with
  | some cu => if cu = "" then q
      else q.filter (fun c => c.currency_code == some (strUpper cu))
  | none => q

/-- `if sort == "gdp_desc": ... elif sort == "gdp_asc": ...`
(`app/main.py` 122-125): order by `estimated_gdp` for exactly these two
sort arguments, otherwise leave the query order unchanged. -/
def sortStep (sort : Option String) (q : List Country) : List Country :=
  match sort with
  | some srt =>
      if srt = "gdp_desc" then q.mergeSort gdpDescLE
      else if srt = "gdp_asc" then q.mergeSort gdpAscLE
      else q
  | none => q

/-- `GET /countries` (`get_countries`, `app/main.py` 110-127): the base
query over all rows, the two conditional filters applied in sequence, then
the conditional ordering. -/
def get_countries (region currency sort : Option String) (s : Store) :
    List Country :=
  sortStep sort (currencyFilter currency (regionFilter region s.records))

/-- `GET /countries/{name}` (`get_country`, `app/main.py` 186-194):
first row with `Country.name == name` (case-sensitive string equality),
404 "Country not found" when none. -/
def get_country (name : String) (s : Store) : Except ApiError Country :=
  match s.records.find? (fun c => c.name == some name) with
  | some c => .ok c
  | none => .error .notFound

/-- `DELETE /countries/{name}` (`delete_country`, `app/main.py` 196-203):
same case-sensitive lookup; on a hit, delete that row and commit, returning
a success message; 404 otherwise. -/
def delete_country (name : String) (s : Store) : Store × Except ApiError String :=
  match s.records.findIdx? (fun c => c.name == some name) with
  | some i => ({ s with records := s.records.eraseIdx i },
      .ok ("Country " ++ name ++ " deleted successfully"))
  | none => (s, .error .notFound)

/-! ## Unfolding lemmas for the reconciler -/

lemma extract_currency_code_eq (m : ℚ) (now : Nat) (rc : RawCountry) (rates : Rates) :
    (extract_country_data m now rc rates).currency_code =
      match rc.currencies with
      | [] => none
      | c :: _ => c.code := rfl

lemma extract_exchange_rate_eq (m : ℚ) (now : Nat) (rc : RawCountry) (rates : Rates) :
    (extract_country_data m now rc rates).exchange_rate =
      match (extract_country_data m now rc rates).currency_code with
      | none => none
      | some code => if code = "" then none else rates.lookup code := rfl

lemma extract_population_eq (m : ℚ) (now : Nat) (rc : RawCountry) (rates : Rates) :
    (extract_country_data m now rc rates).population =
      if rc.population.getD 0 ≤ 0 then 1000000 else rc.population.getD 0 := rfl

lemma extract_gdp_eq (m : ℚ) (now : Nat) (rc : RawCountry) (rates : Rates) :
    (extract_country_data m now rc rates).estimated_gdp =
      match (extract_country_data m now rc rates).exchange_rate with
      | none => none
      | some r => if r = 0 then none
          else compute_estimated_gdp m (extract_country_data m now rc rates).population (some r) := rfl

lemma extract_last_refreshed_eq (m : ℚ) (now : Nat) (rc : RawCountry) (rates : Rates) :
    (extract_country_data m now rc rates).last_refreshed_at = now := rfl

lemma extract_population_pos (m : ℚ) (now : Nat) (rc : RawCountry) (rates : Rates) :
    0 < (extract_country_data m now rc rates).population := by
  rw [extract_population_eq]
  split <;> omega

/-! ## Test fixtures (concrete inputs used by witnesses and counterexamples) -/

/-- A raw entry with an empty currency list and non-positive population. -/
def rcEmptyCur : RawCountry :=
  { name := some "Testland", capital := none, region := none,
    population := some 0, flag := none, currencies := [] }

/-- A raw entry whose first currency has code `"USD"`. -/
def rcUSD : RawCountry :=
  { name := some "Testland", capital := none, region := some "Europe",
    population := some 4, flag := none, currencies := [{ code := some "USD" }] }

/-- A rate table mapping `"USD"` to the rate `2`. -/
def ratesUSD2 : Rates := [("USD", 2)]

/-- A rate table mapping `"USD"` to the rate `0`. -/
def ratesUSD0 : Rates := [("USD", 0)]

/-! ## Claims -/

/-- Claim C10: `compute_estimated_gdp` is total (a Lean function) and never
divides by zero: for every multiplier and population, an exchange-rate
argument that is `None` or equal to `0` yields `None` (the division branch
runs only for a non-zero rate). -/
theorem compute_estimated_gdp_none_of_falsy_rate (m : ℚ) (population : Int) :
    compute_estimated_gdp m population none = none ∧
    compute_estimated_gdp m population (some 0) = none := by
  constructor
  · rfl
  · simp [compute_estimated_gdp]

/-- Claim C4: a raw entry whose currency list is empty (a missing list is
read as `[]` by `.get('currencies', [])`) reconciles to a record with
`currency_code` absent and `estimated_gdp` absent. -/
theorem extract_no_currency_absent_code_gdp (m : ℚ) (now : Nat)
    (rc : RawCountry) (rates : Rates) (h : rc.currencies = []) :
    (extract_country_data m now rc rates).currency_code = none ∧
    (extract_country_data m now rc rates).estimated_gdp = none := by
  have hcode : (extract_country_data m now rc rates).currency_code = none := by
    rw [extract_currency_code_eq, h]
  refine ⟨hcode, ?_⟩
  rw [extract_gdp_eq, extract_exchange_rate_eq, hcode]

/-- Witness for C4 at a concrete empty-currency entry. -/
theorem extract_no_currency_absent_code_gdp_witness :
    (extract_country_data 1500 7 rcEmptyCur ratesUSD2).currency_code = none ∧
    (extract_country_data 1500 7 rcEmptyCur ratesUSD2).estimated_gdp = none :=
  extract_no_currency_absent_code_gdp 1500 7 rcEmptyCur ratesUSD2 rfl

/-- Claim C5: a raw entry whose source population is missing or `≤ 0`
reconciles to the fallback population `1000000`; and every reconciled
record's population is strictly positive. -/
theorem extract_population_fallback_and_pos (m : ℚ) (now : Nat)
    (rc : RawCountry) (rates : Rates) :
    ((rc.population = none ∨ ∃ p, rc.population = some p ∧ p ≤ 0) →
        (extract_country_data m now rc rates).population = 1000000) ∧
    0 < (extract_country_data m now rc rates).population := by
  refine ⟨?_, extract_population_pos m now rc rates⟩
  rintro (h | ⟨p, hp, hple⟩) <;> rw [extract_population_eq]
  · rw [h]; rfl
  · rw [hp]; simp [hple]

/-- Witness for C5 at a concrete entry with population 0. -/
theorem extract_population_fallback_and_pos_witness :
    (extract_country_data 1500 7 rcEmptyCur ratesUSD2).population = 1000000 ∧
    0 < (extract_country_data 1500 7 rcEmptyCur ratesUSD2).population := by
  have h := extract_population_fallback_and_pos 1500 7 rcEmptyCur ratesUSD2
  exact ⟨h.1 (Or.inr ⟨0, rfl, le_refl 0⟩), h.2⟩

/-- Claim C6: `estimated_gdp` is present in a reconciled record only if
`exchange_rate` is present in that record. -/
theorem extract_gdp_present_requires_rate (m : ℚ) (now : Nat)
    (rc : RawCountry) (rates : Rates)
    (h : (extract_country_data m now rc rates).estimated_gdp ≠ none) :
    (extract_country_data m now rc rates).exchange_rate ≠ none := by
  intro hx
  apply h
  rw [extract_gdp_eq, hx]

/-- Witness for C6 at a concrete entry whose `estimated_gdp` is present. -/
theorem extract_gdp_present_requires_rate_witness :
    (extract_country_data 1500 7 rcUSD ratesUSD2).estimated_gdp ≠ none ∧
    (extract_country_data 1500 7 rcUSD ratesUSD2).exchange_rate ≠ none := by
  refine ⟨by decide, extract_gdp_present_requires_rate 1500 7 rcUSD ratesUSD2 (by decide)⟩

/-- Claim C1: if either external fetch fails (the countries fetch runs
first), the refresh cycle returns the "external source unavailable" error
and the store is returned unchanged — both fetches precede any mutation. -/
theorem refresh_fetch_failure_unchanged_store (e : String)
    (l : List RawCountry) (fr : Except String Rates) (mult : Nat → ℚ)
    (clock : Nat → Nat) (s : Store) :
    refresh_countries (.error e) fr mult clock s =
      (s, .error (.externalUnavailable e)) ∧
    refresh_countries (.ok l) (.error e) mult clock s =
      (s, .error (.externalUnavailable e)) :=
  ⟨rfl, rfl⟩

/-- Counterexample to claim C3 as stated: with rate table `{"USD": 0}` the
reconciled record has `exchange_rate` present (`some 0`) and a positive
population, yet `estimated_gdp` is absent — `compute_estimated_gdp` treats a
zero rate as falsy (`if not exchange_rate`), and the call is guarded by the
same truthiness test. -/
theorem extract_zero_rate_gdp_absent_counterexample :
    (extract_country_data 1500 7 rcUSD ratesUSD0).exchange_rate = some 0 ∧
    0 < (extract_country_data 1500 7 rcUSD ratesUSD0).population ∧
    (extract_country_data 1500 7 rcUSD ratesUSD0).estimated_gdp = none := by
  decide

/-- Claim C3 (amended): for every reconciled record whose `exchange_rate` is
present and strictly positive, with the multiplier in the range drawn by
`random.uniform(1000, 2000)`, `estimated_gdp` is present and strictly
positive whenever the record's population is positive (which it always is,
by the fallback). -/
theorem extract_gdp_present_positive_of_positive_rate (m : ℚ) (now : Nat)
    (rc : RawCountry) (rates : Rates) (r : ℚ) (hm : 1000 ≤ m)
    (hr : (extract_country_data m now rc rates).exchange_rate = some r)
    (hrpos : 0 < r) :
    ∃ g, (extract_country_data m now rc rates).estimated_gdp = some g ∧
      (0 < (extract_country_data m now rc rates).population → 0 < g) := by
  have hr0 : ¬ (r = 0) := ne_of_gt hrpos
  rw [extract_gdp_eq, hr]
  simp only [hr0, if_false, compute_estimated_gdp]
  refine ⟨_, rfl, fun hpop => ?_⟩
  have hm0 : (0 : ℚ) < m := lt_of_lt_of_le (by norm_num) hm
  have hpopq : (0 : ℚ) < ((extract_country_data m now rc rates).population : ℚ) := by
    exact_mod_cast hpop
  exact div_pos (mul_pos hpopq hm0) hrpos

/-- Witness for the amended C3 at rate `2` and multiplier `1500`. -/
theorem extract_gdp_present_positive_witness :
    ∃ g, (extract_country_data 1500 7 rcUSD ratesUSD2).estimated_gdp = some g ∧
      (0 < (extract_country_data 1500 7 rcUSD ratesUSD2).population → 0 < g) :=
  extract_gdp_present_positive_of_positive_rate 1500 7 rcUSD ratesUSD2 2
    (by norm_num) (by decide) (by norm_num)

/-! ## Upsert lemmas -/

lemma upsertRecords_eq_none (d : CountryData) (l : List Country)
    (h : ∀ c ∈ l, nameMatches d.name c = false) : upsertRecords d l = none := by
  induction l with
  | nil => rfl
  | cons c rest ih =>
      simp only [upsertRecords, h c (List.mem_cons_self c rest)]
      rw [ih (fun c' hc' => h c' (List.mem_cons_of_mem c hc'))]
      rfl

lemma upsertRecords_found (d : CountryData) (pre : List Country) (c : Country)
    (post : List Country) (hpre : ∀ c' ∈ pre, nameMatches d.name c' = false)
    (hc : nameMatches d.name c = true) :
    upsertRecords d (pre ++ c :: post) = some (pre ++ applyCountryData c d :: post) := by
  induction pre with
  | nil => simp [upsertRecords, hc]
  | cons p ps ih =>
      have hp := hpre p (List.mem_cons_self p ps)
      have ih' := ih (fun c' hc' => hpre c' (List.mem_cons_of_mem p hc'))
      simp [upsertRecords, hp, ih']

/-- Claim C2: during refresh, each reconciled dict is upserted by a
case-insensitive name lookup: if no row matches, a new row is appended with
the fresh id `nextId` (distinct from every stored id whenever every stored
id is below `nextId`); if the first matching row is found, it is overwritten
in place with every dict field, the surrogate id preserved; and the refresh
loop performs exactly this upsert per raw entry. -/
theorem refresh_upsert_semantics (s : Store) (d : CountryData) :
    ((∀ c ∈ s.records, nameMatches d.name c = false) →
        upsertCountry s d =
          { records := s.records ++ [newCountry s.nextId d], nextId := s.nextId + 1 } ∧
        (newCountry s.nextId d).id = s.nextId ∧
        ((∀ c ∈ s.records, c.id < s.nextId) →
          ∀ c ∈ s.records, c.id ≠ (newCountry s.nextId d).id)) ∧
    (∀ pre c post, s.records = pre ++ c :: post →
        (∀ c' ∈ pre, nameMatches d.name c' = false) →
        nameMatches d.name c = true →
        upsertCountry s d =
          { records := pre ++ applyCountryData c d :: post, nextId := s.nextId }) ∧
    (∀ c, (applyCountryData c d).id = c.id ∧
        (applyCountryData c d).name = d.name ∧
        (applyCountryData c d).capital = d.capital ∧
        (applyCountryData c d).region = d.region ∧
        (applyCountryData c d).population = d.population ∧
        (applyCountryData c d).currency_code = d.currency_code ∧
        (applyCountryData c d).exchange_rate = d.exchange_rate ∧
        (applyCountryData c d).estimated_gdp = d.estimated_gdp ∧
        (applyCountryData c d).flag_url = d.flag_url ∧
        (applyCountryData c d).last_refreshed_at = d.last_refreshed_at) ∧
    (∀ rates mult clock cd rest i,
        refreshLoop rates mult clock (cd :: rest) i s =
          refreshLoop rates mult clock rest (i + 1)
            (upsertCountry s (extract_country_data (mult i) (clock (i + 1)) cd rates))) := by
  refine ⟨?_, ?_, ?_, ?_⟩
  · intro h
    refine ⟨?_, rfl, ?_⟩
    · simp [upsertCountry, upsertRecords_eq_none d s.records h]
    · intro hlt c hc
      have := hlt c hc
      simp only [newCountry]
      omega
  · intro pre c post hrec hpre hc
    simp [upsertCountry, hrec, upsertRecords_found d pre c post hpre hc]
  · intro c
    exact ⟨rfl, rfl, rfl, rfl, rfl, rfl, rfl, rfl, rfl, rfl⟩
  · intro rates mult clock cd rest i
    rfl

/-- A stored row whose name differs from `"Testland"` only in case. -/
def storedTESTLAND : Country :=
  { id := 5, name := some "TESTLAND", capital := some "Old", region := some "Asia",
    population := 3, currency_code := some "XYZ", exchange_rate := some 9,
    estimated_gdp := some 1, flag_url := none, last_refreshed_at := 2 }

/-- A concrete reconciled dict named `"Testland"`. -/
def dTestland : CountryData :=
  extract_country_data 1500 7 rcUSD ratesUSD2

/-- Witness for C2: on an empty store the dict is inserted with the fresh
id; on a store holding a row named `"TESTLAND"` the upsert for `"Testland"`
overwrites that row in place, preserving id 5. -/
theorem refresh_upsert_semantics_witness :
    upsertCountry ⟨[], 0⟩ dTestland = ⟨[newCountry 0 dTestland], 1⟩ ∧
    upsertCountry ⟨[storedTESTLAND], 6⟩ dTestland =
      ⟨[applyCountryData storedTESTLAND dTestland], 6⟩ := by
  constructor
  · exact ((refresh_upsert_semantics ⟨[], 0⟩ dTestland).1 (by simp)).1
  · exact (refresh_upsert_semantics ⟨[storedTESTLAND], 6⟩ dTestland).2.1
      [] storedTESTLAND [] rfl (by simp) (by decide)

/-! ## Refresh timestamp lemmas -/

lemma upsertRecords_mem (d : CountryData) (l : List Country) (rs : List Country)
    (h : upsertRecords d l = some rs) :
    ∀ c ∈ rs, c ∈ l ∨ c.last_refreshed_at = d.last_refreshed_at := by
  induction l generalizing rs with
  | nil => simp [upsertRecords] at h
  | cons c₀ rest ih =>
      by_cases hm : nameMatches d.name c₀
      · simp only [upsertRecords, hm, if_true, Option.some.injEq] at h
        subst h
        intro c hc
        rcases List.mem_cons.1 hc with hc | hc
        · exact Or.inr (by rw [hc]; rfl)
        · exact Or.inl (List.mem_cons_of_mem c₀ hc)
      · have h' : Option.map (c₀ :: ·) (upsertRecords d rest) = some rs := by
          rw [← h]
          simp [upsertRecords, hm]
        cases hrest : upsertRecords d rest with
        | none => rw [hrest] at h'; simp at h'
        | some rs' =>
            rw [hrest] at h'
            simp only [Option.map_some', Option.some.injEq] at h'
            subst h'
            intro c hc
            rcases List.mem_cons.1 hc with hc | hc
            · exact Or.inl (by rw [hc]; exact List.mem_cons_self c₀ rest)
            · rcases ih rs' hrest c hc with h'' | h''
              · exact Or.inl (List.mem_cons_of_mem c₀ h'')
              · exact Or.inr h''

lemma upsertCountry_mem (s : Store) (d : CountryData) :
    ∀ c ∈ (upsertCountry s d).records,
      c ∈ s.records ∨ c.last_refreshed_at = d.last_refreshed_at := by
  cases h : upsertRecords d s.records with
  | some rs =>
      intro c hc
      simp only [upsertCountry, h] at hc
      exact upsertRecords_mem d s.records rs h c hc
  | none =>
      intro c hc
      simp only [upsertCountry, h] at hc
      rcases List.mem_append.1 hc with hc | hc
      · exact Or.inl hc
      · simp only [List.mem_singleton] at hc
        exact Or.inr (by rw [hc]; rfl)

lemma refreshLoop_mem (rates : Rates) (mult : Nat → ℚ) (clock : Nat → Nat)
    (l : List RawCountry) (i : Nat) (s : Store) :
    ∀ c ∈ (refreshLoop rates mult clock l i s).records,
      c ∈ s.records ∨ ∃ j, c.last_refreshed_at = clock (j + 1) := by
  induction l generalizing i s with
  | nil => intro c hc; exact Or.inl hc
  | cons cd rest ih =>
      intro c hc
      rcases ih (i + 1) (upsertCountry s (extract_country_data (mult i) (clock (i + 1)) cd rates)) c hc with h' | h'
      · rcases upsertCountry_mem _ _ c h' with h'' | h''
        · exact Or.inl h''
        · exact Or.inr ⟨i, by rw [h'']; rfl⟩
      · exact Or.inr h'

/-- A raw country entry used by the refresh counterexamples. -/
def rcPlain : RawCountry :=
  { name := some "Testland", capital := none, region := none,
    population := some 5, flag := none, currencies := [] }

/-- The refresh cycle on one raw entry, empty rate table, identity clock
(`utcnow()` call `k` returns `k`) and empty initial store. -/
def refreshRun : Store × Except ApiError Summary :=
  refresh_countries (.ok [rcPlain]) (.ok []) (fun _ => 1500) (fun k => k) ⟨[], 0⟩

/-- Counterexample to claim C9 as stated: `refresh_time` is stamped at line
90, before the reconciliation loop, so the summary's timestamp (`utcnow()`
call 0) precedes every per-record stamp (calls 1, 2, ...). With the identity
clock the summary carries timestamp 0 while the single reconciled record
carries timestamp 1: the summary timestamp is not `≥` the record stamps. -/
theorem refresh_summary_time_counterexample :
    refreshRun.2 = .ok { total_countries := 1, last_refreshed_at := 0 } ∧
    refreshRun.1.records.map Country.last_refreshed_at = [1] ∧
    ¬ (∀ c ∈ refreshRun.1.records, c.last_refreshed_at ≤ 0) := by
  refine ⟨rfl, rfl, by decide⟩

/-- Claim C9 (amended): for every successful refresh, the summary's
timestamp is the cycle's first `utcnow()` reading, taken before the
reconciliation loop; hence, for a monotone clock, it is less than or equal
to every `last_refreshed_at` stamped during that cycle (records untouched
by the cycle keep their prior stamps). -/
theorem refresh_summary_time_before_record_stamps (l : List RawCountry)
    (rates : Rates) (mult : Nat → ℚ) (clock : Nat → Nat) (s : Store)
    (hmono : Monotone clock) :
    (refresh_countries (.ok l) (.ok rates) mult clock s).2 =
      .ok { total_countries :=
              (refresh_countries (.ok l) (.ok rates) mult clock s).1.records.length,
            last_refreshed_at := clock 0 } ∧
    ∀ c ∈ (refresh_countries (.ok l) (.ok rates) mult clock s).1.records,
      c ∈ s.records ∨ clock 0 ≤ c.last_refreshed_at := by
  refine ⟨rfl, ?_⟩
  intro c hc
  rcases refreshLoop_mem rates mult clock l 0 s c hc with h | ⟨j, hj⟩
  · exact Or.inl h
  · exact Or.inr (hj ▸ hmono (Nat.zero_le (j + 1)))

/-- Witness for the amended C9 on the concrete one-entry run. -/
theorem refresh_summary_time_before_record_stamps_witness :
    refreshRun.2 = .ok { total_countries := refreshRun.1.records.length,
                         last_refreshed_at := 0 } ∧
    ∀ c ∈ refreshRun.1.records, c ∈ ([] : List Country) ∨ 0 ≤ c.last_refreshed_at :=
  refresh_summary_time_before_record_stamps [rcPlain] [] (fun _ => 1500)
    (fun k => k) ⟨[], 0⟩ (fun _ _ h => h)

/-! ## Query filter lemmas -/

lemma mem_regionFilter (region : Option String) (q : List Country) (c : Country) :
    c ∈ regionFilter region q ↔
      c ∈ q ∧ (∀ r, region = some r → r ≠ "" → c.region = some r) := by
  rcases region with _ | r
  · simp [regionFilter]
  · by_cases hr : r = "" <;> simp [regionFilter, hr, List.mem_filter]

lemma mem_currencyFilter (currency : Option String) (q : List Country) (c : Country) :
    c ∈ currencyFilter currency q ↔
      c ∈ q ∧ (∀ cu, currency = some cu → cu ≠ "" →
        c.currency_code = some (strUpper cu)) := by
  rcases currency with _ | cu
  · simp [currencyFilter]
  · by_cases hcu : cu = "" <;> simp [currencyFilter, hcu, List.mem_filter]

lemma mem_sortStep (sort : Option String) (q : List Country) (c : Country) :
    c ∈ sortStep sort q ↔ c ∈ q := by
  rcases sort with _ | srt
  · simp [sortStep]
  · by_cases h1 : srt = "gdp_desc" <;> by_cases h2 : srt = "gdp_asc" <;>
      simp [sortStep, h1, h2, List.mem_mergeSort]

/-- A stored row in region `"Europe"` with currency code `"USD"`. -/
def euRow : Country :=
  { id := 1, name := some "France", capital := some "Paris",
    region := some "Europe", population := 67000000,
    currency_code := some "USD", exchange_rate := some 2,
    estimated_gdp := some 100, flag_url := none, last_refreshed_at := 3 }

/-- Counterexample to claim C7 as stated: with the empty string as region
and currency arguments (`region=&currency=` in the query string), Python
truthiness (`if region:`) skips both filters entirely, so a row whose
region is `"Europe"` and whose currency code is `"USD"` is returned even
though neither field equals the (upper-cased) argument. -/
theorem get_countries_empty_string_counterexample :
    get_countries (some "") (some "") none { records := [euRow], nextId := 2 } =
      [euRow] ∧
    euRow.region ≠ some "" ∧ euRow.currency_code ≠ some (strUpper "") := by
  refine ⟨rfl, by decide, by decide⟩

/-- Claim C7 (amended): for every store and list query, a record is
returned iff it is stored and passes every given non-empty filter: a
non-empty region argument keeps exactly the records whose region equals it,
a non-empty currency argument keeps exactly those whose `currency_code`
equals the upper-cased argument, and both filters apply conjunctively (an
absent or empty-string argument filters nothing). -/
theorem get_countries_filter_semantics (s : Store)
    (region currency sort : Option String) (c : Country) :
    c ∈ get_countries region currency sort s ↔
      (c ∈ s.records ∧
        (∀ r, region = some r → r ≠ "" → c.region = some r) ∧
        (∀ cu, currency = some cu → cu ≠ "" →
          c.currency_code = some (strUpper cu))) := by
  rw [get_countries, mem_sortStep, mem_currencyFilter, mem_regionFilter, and_assoc]

/-- Claim C8: `get(name)` and `delete(name)` succeed exactly on an exact
case-sensitive name match (the row SQL `Country.name == name` selects) and
fail with "not found" otherwise; on the empty store `get` always fails.
(The upsert path, by contrast, matches case-insensitively — see
`nameMatches`.) -/
theorem get_delete_case_sensitive (s : Store) (name : String) :
    ((∃ c ∈ s.records, c.name = some name) ↔ ∃ c, get_country name s = .ok c) ∧
    (∀ c, get_country name s = .ok c → c.name = some name ∧ c ∈ s.records) ∧
    ((∀ c ∈ s.records, c.name ≠ some name) →
        get_country name s = .error .notFound ∧
        delete_country name s = (s, .error .notFound)) ∧
    ((∃ c ∈ s.records, c.name = some name) →
        (delete_country name s).2 =
          .ok ("Country " ++ name ++ " deleted successfully")) ∧
    (∀ n, get_country name { records := [], nextId := n } = .error .notFound) := by
  have hfindP : ∀ c : Country, (c.name == some name) = true ↔ c.name = some name := by
    intro c; exact beq_iff_eq
  refine ⟨?_, ?_, ?_, ?_, fun n => rfl⟩
  · constructor
    · rintro ⟨c, hc, hname⟩
      cases hf : s.records.find? (fun c => c.name == some name) with
      | none =>
          exact absurd ((hfindP c).2 hname)
            (by simpa using List.find?_eq_none.1 hf c hc)
      | some c' => exact ⟨c', by simp [get_country, hf]⟩
    · rintro ⟨c, hc⟩
      cases hf : s.records.find? (fun c => c.name == some name) with
      | none => simp [get_country, hf] at hc
      | some c' =>
          exact ⟨c', List.mem_of_find?_eq_some hf,
            (hfindP c').1 (by simpa using List.find?_some hf)⟩
  · intro c hc
    cases hf : s.records.find? (fun c => c.name == some name) with
    | none => simp [get_country, hf] at hc
    | some c' =>
        simp only [get_country, hf, Except.ok.injEq] at hc
        subst hc
        exact ⟨(hfindP c').1 (by simpa using List.find?_some hf),
          List.mem_of_find?_eq_some hf⟩
  · intro h
    have hfalse : ∀ c ∈ s.records, (c.name == some name) = false := by
      intro c hc
      simpa using (h c hc)
    have hf : s.records.find? (fun c => c.name == some name) = none :=
      List.find?_eq_none.2 (fun c hc => by simp [hfalse c hc])
    have hfi : s.records.findIdx? (fun c => c.name == some name) = none :=
      List.findIdx?_eq_none_iff.2 hfalse
    exact ⟨by simp [get_country, hf], by simp [delete_country, hfi]⟩
  · rintro ⟨c, hc, hname⟩
    cases hfi : s.records.findIdx? (fun c => c.name == some name) with
    | none =>
        exact absurd ((hfindP c).2 hname)
          (by simpa using List.findIdx?_eq_none_iff.1 hfi c hc)
    | some i => simp [delete_country, hfi]

/-- Witness for C8: the store holding the row named `"France"`: lookup by
`"France"` succeeds, lookup and delete by `"france"` fail with not-found,
and lookup on the empty store fails. -/
theorem get_delete_case_sensitive_witness :
    get_country "France" { records := [euRow], nextId := 2 } = .ok euRow ∧
    get_country "france" { records := [euRow], nextId := 2 } = .error .notFound ∧
    delete_country "france" { records := [euRow], nextId := 2 } =
      ({ records := [euRow], nextId := 2 }, .error .notFound) ∧
    get_country "Atlantis" { records := [], nextId := 0 } = .error .notFound := by
  have h := get_delete_case_sensitive { records := [euRow], nextId := 2 } "france"
  have hmatch : ∀ c ∈ ({ records := [euRow], nextId := 2 } : Store).records,
      c.name ≠ some "france" := by decide
  exact ⟨rfl, (h.2.2.1 hmatch).1, (h.2.2.1 hmatch).2,
    (get_delete_case_sensitive { records := [], nextId := 0 } "Atlantis").2.2.2.2 0⟩

/-- Witness for the amended C7: the row in region `"Europe"` with currency
code `"USD"` is returned by the conjunctive query `region=Europe`,
`currency=usd` (lower-case input upper-cased before matching). -/
theorem get_countries_filter_semantics_witness :
    euRow ∈ get_countries (some "Europe") (some "usd") none
      { records := [euRow], nextId := 2 } := by
  refine (get_countries_filter_semantics { records := [euRow], nextId := 2 }
    (some "Europe") (some "usd") none euRow).mpr ⟨by decide, ?_, ?_⟩ <;>
    · intro x hx hne
      injection hx with h
      subst h
      decide
